import Mathlib

/-!
  # Verification of the tsdb series core (banyand/tsdb/series.go)

  Shallow embedding of the global item id codec, the `Series` / `SeriesSpan`
  operations and the block-database collaborator contract. Machine integers
  are modelled as `Nat` with explicit width bounds where overflow matters;
  byte strings are `List Nat` with entries below 256; fallible code returns
  `Except` (or an error `Option` paired with the updated receiver, for the
  Go method that mutates its receiver). Collaborator calls whose count the
  spec constrains are instrumented with an explicit call trace.
-/

namespace Tsdb

/-! ## Byte-level helpers -/

/-- Big-endian value of a byte list (most significant byte first). -/
def bytesVal (bs : List Nat) : Nat :=
  bs.foldl (fun acc b => acc * 256 + b) 0

/-- The `n` big-endian base-256 digits of `v` (most significant first). -/
def natToDigits : Nat → Nat → List Nat
  | 0, _ => []
  | n + 1, v => v / 2 ^ (8 * n) % 256 :: natToDigits n (v % 2 ^ (8 * n))

/-- Modelled from the spec: `pkg/convert.Uint32ToBytes` writes the four
big-endian bytes of a 32-bit value (missing from the provided sources;
the spec fixes the encoding as big-endian network order). -/
def Uint32ToBytes (v : Nat) : List Nat :=
  [v / 2 ^ 24 % 256, v / 2 ^ 16 % 256, v / 2 ^ 8 % 256, v % 256]

/-- Modelled from the spec: `pkg/convert.Uint16ToBytes`, two big-endian
bytes of a 16-bit value. -/
def Uint16ToBytes (v : Nat) : List Nat :=
  [v / 2 ^ 8 % 256, v % 256]

/-- Modelled from the spec: `pkg/convert.Uint64ToBytes`, eight big-endian
bytes of a 64-bit value. -/
def Uint64ToBytes (v : Nat) : List Nat :=
  [v / 2 ^ 56 % 256, v / 2 ^ 48 % 256, v / 2 ^ 40 % 256, v / 2 ^ 32 % 256,
   v / 2 ^ 24 % 256, v / 2 ^ 16 % 256, v / 2 ^ 8 % 256, v % 256]

/-- Modelled from the spec: `pkg/convert.BytesToUint32`, big-endian read of
the first four bytes. -/
def BytesToUint32 (b : List Nat) : Nat := bytesVal (b.take 4)

/-- Modelled from the spec: `pkg/convert.BytesToUint16`, big-endian read of
the first two bytes. -/
def BytesToUint16 (b : List Nat) : Nat := bytesVal (b.take 2)

/-- Modelled from the spec: `pkg/convert.BytesToUint64`, big-endian read of
the first eight bytes. -/
def BytesToUint64 (b : List Nat) : Nat := bytesVal (b.take 8)

/-! ## Global item id -/

/-- GlobalItemID from series.go. Go field types: `ShardID` uint32,
`segID` uint16, `blockID` uint16, `SeriesID` uint64, `ID` uint64;
each is a `Nat` here, with the width bound a hypothesis where needed. -/
structure GlobalItemID where
  ShardID : Nat
  segID : Nat
  blockID : Nat
  SeriesID : Nat
  ID : Nat
deriving Repr, DecidableEq

/-- Errors of the tsdb series core. `withId` stands for
`errors.WithMessagef(base, "id: %v", id)`: it wraps a base error and
carries the offending id. `upstream` stands for an arbitrary error
produced by the block database or a delegate. -/
inductive Err where
  | ErrEmptySeriesSpan
  | ErrItemIDMalformed
  | ErrBlockAbsent
  | withId (base : Err) (id : GlobalItemID)
  | upstream (code : Nat)
deriving Repr, DecidableEq

/-- Marshal from series.go: `bytes.Join` of the big-endian encodings of the
five fields, in declaration order. -/
def GlobalItemID.Marshal (i : GlobalItemID) : List Nat :=
  Uint32ToBytes i.ShardID ++
    (Uint16ToBytes i.segID ++
      (Uint16ToBytes i.blockID ++
        (Uint64ToBytes i.SeriesID ++ Uint64ToBytes i.ID)))

/-- UnMarshal from series.go. The Go method mutates its receiver and
returns an error; here it returns the error option together with the
receiver after the call. The length guard runs before any assignment. -/
def GlobalItemID.UnMarshal (i : GlobalItemID) (data : List Nat) :
    Option Err × GlobalItemID :=
  if data.length ≠ 4 + 2 + 2 + 8 + 8 then
    (some Err.ErrItemIDMalformed, i)
  else
    (none,
      { ShardID := BytesToUint32 ((data.drop 0).take 4)
        segID := BytesToUint16 ((data.drop 4).take 2)
        blockID := BytesToUint16 ((data.drop 6).take 2)
        SeriesID := BytesToUint64 ((data.drop 8).take 8)
        ID := BytesToUint64 (data.drop 16) })

/-! ## Time ranges and the block-database collaborator -/

/-- Modelled from the spec: `pkg/timestamp.TimeRange`, a start and end with
inclusivity flags (missing from the provided sources). Instants are `Nat`. -/
structure TimeRange where
  start : Nat
  endTime : Nat
  includeStart : Bool
  includeEnd : Bool
deriving Repr, DecidableEq

/-- Modelled from the spec: `pkg/timestamp.NewInclusiveTimeRange` builds the
range with both endpoints included. -/
def NewInclusiveTimeRange (s e : Nat) : TimeRange :=
  { start := s, endTime := e, includeStart := true, includeEnd := true }

/-- BlockDelegate: a scoped handle on one block. `blk` is its identity,
`data` the token its `dataReader` yields, `closeResult` the error its
`Close` returns (`none` on success). -/
structure BlockDelegate where
  blk : Nat
  data : Nat
  closeResult : Option Err
deriving Repr, DecidableEq

/-- The blockDatabase collaborator consumed by `series` (its interface is
declared in the tsdb package). Operations are pure functions from their
arguments to results; contexts only carry cancellation/logging and are
omitted. -/
structure blockDatabase where
  span : TimeRange → Except Err (List BlockDelegate)
  create : Nat → Except Err BlockDelegate
  block : GlobalItemID → Except Err (Option BlockDelegate)
  shardID : Nat

/-- The series struct from series.go (logger omitted: logging is
effect-free). -/
structure series where
  id : Nat
  blockDB : blockDatabase
  shardID : Nat

/-- The seriesSpan struct from series.go (logger omitted). -/
structure seriesSpan where
  blocks : List BlockDelegate
  seriesID : Nat
  shardID : Nat
  timeRange : TimeRange
deriving Repr, DecidableEq

/-- The item struct from series.go: a reader token tagged with the series
and item ids. -/
structure item where
  data : Nat
  itemID : Nat
  seriesID : Nat
deriving Repr, DecidableEq

/-- newSeriesSpan from series.go (context/logger plumbing omitted). -/
def newSeriesSpan (timeRange : TimeRange) (blocks : List BlockDelegate)
    (id shardID : Nat) : seriesSpan :=
  { blocks := blocks, seriesID := id, shardID := shardID,
    timeRange := timeRange }

/-! ## Series operations -/

/-- ID from series.go: pure accessor of the series identifier. -/
def series.ID (s : series) : Nat := s.id

/-- Span from series.go: delegate to the block database, fail with
`ErrEmptySeriesSpan` when it returns fewer than one block, otherwise wrap
the returned delegates. -/
def series.Span (s : series) (timeRange : TimeRange) :
    Except Err seriesSpan :=
  match s.blockDB.span timeRange with
  | .error err => .error err
  | .ok blocks =>
    if blocks.length < 1 then .error Err.ErrEmptySeriesSpan
    else .ok (newSeriesSpan timeRange blocks s.id s.shardID)

/-- Create from series.go. The second component records the arguments of
the calls made to the block database `create` operation, so that the
spec's call-count constraint is a provable statement. -/
def series.Create (s : series) (t : Nat) :
    Except Err seriesSpan × List Nat :=
  let tr := NewInclusiveTimeRange t t
  match s.blockDB.span tr with
  | .error err => (.error err, [])
  | .ok blocks =>
    if blocks.length > 0 then
      (.ok (newSeriesSpan tr blocks s.id s.shardID), [])
    else
      match s.blockDB.create t with
      | .error err => (.error err, [t])
      | .ok b => (.ok (newSeriesSpan tr (blocks ++ [b]) s.id s.shardID), [t])

/-- Get from series.go: look the block up by id; propagate errors
unchanged; a `none` delegate becomes `ErrBlockAbsent` annotated with the
id; otherwise return the tagged item together with the delegate, which is
the closer handed back to the caller. -/
def series.Get (s : series) (id : GlobalItemID) :
    Except Err (item × BlockDelegate) :=
  match s.blockDB.block id with
  | .error err => .error err
  | .ok none => .error (Err.withId Err.ErrBlockAbsent id)
  | .ok (some b) =>
    .ok ({ data := b.data, itemID := id.ID, seriesID := s.id }, b)

/-- Modelled from the spec: `go.uber.org/multierr.Append` composes close
errors so none is lost. An aggregated error is the list of the collected
failures, the empty list standing for the nil error. -/
def multierrAppend (err : List Err) (e : Option Err) : List Err :=
  match e with
  | none => err
  | some x => err ++ [x]

/-- Close from series.go: fold over the delegates, closing each one and
accumulating the errors with multierr. The second component records the
delegates on which `Close` was invoked, in order. -/
def seriesSpan.Close (s : seriesSpan) : List Err × List BlockDelegate :=
  s.blocks.foldl
    (fun acc delegate =>
      (multierrAppend acc.1 delegate.closeResult, acc.2 ++ [delegate]))
    ([], [])

/-! ## Comparison functions (spec side) -/

/-- Three-way comparison of naturals, in the style of Go comparisons. -/
def natCompare (a b : Nat) : Ordering :=
  if a < b then .lt else if b < a then .gt else .eq

/-- Lexicographic three-way comparison of byte strings, as
`bytes.Compare` behaves on Go byte slices. -/
def bytesCompare : List Nat → List Nat → Ordering
  | [], [] => .eq
  | [], _ :: _ => .lt
  | _ :: _, [] => .gt
  | a :: as, b :: bs =>
    if a < b then .lt else if b < a then .gt else bytesCompare as bs

/-- Comparison of the tuples underlying two ids, in declared field order:
shard, then segment, then block, then series, then item. -/
def tupleCompare (a b : GlobalItemID) : Ordering :=
  (natCompare a.ShardID b.ShardID).then
    ((natCompare a.segID b.segID).then
      ((natCompare a.blockID b.blockID).then
        ((natCompare a.SeriesID b.SeriesID).then
          (natCompare a.ID b.ID))))

/-! ## Concrete inputs used to instantiate the theorems -/

/-- A delegate whose close succeeds. -/
def dA : BlockDelegate := { blk := 1, data := 10, closeResult := none }

/-- A delegate whose close fails. -/
def dB : BlockDelegate := { blk := 2, data := 20, closeResult := some (Err.upstream 11) }

/-- The all-zero id, used as an untouched receiver. -/
def gZero : GlobalItemID :=
  { ShardID := 0, segID := 0, blockID := 0, SeriesID := 0, ID := 0 }

/-- The id of scenario S1 of the spec: shard 7, segment 3, block 11,
series 0xDEADBEEF, item 0x0102030405060708. -/
def gEx : GlobalItemID :=
  { ShardID := 7, segID := 3, blockID := 11, SeriesID := 3735928559,
    ID := 72623859790382856 }

/-- A second id, differing from gEx in the segment field. -/
def gEx2 : GlobalItemID :=
  { ShardID := 7, segID := 4, blockID := 0, SeriesID := 1, ID := 2 }

/-- A block database holding one block everywhere. -/
def dbOne : blockDatabase :=
  { span := fun _ => .ok [dA], create := fun _ => .error (Err.upstream 99),
    block := fun _ => .ok (some dA), shardID := 5 }

/-- A block database holding nothing: span is empty, point lookup absent. -/
def dbEmpty : blockDatabase :=
  { span := fun _ => .ok [], create := fun _ => .ok dB,
    block := fun _ => .ok none, shardID := 5 }

/-- A block database failing every operation with an upstream error. -/
def dbErr : blockDatabase :=
  { span := fun _ => .error (Err.upstream 7),
    create := fun _ => .error (Err.upstream 7),
    block := fun _ => .error (Err.upstream 7), shardID := 5 }

/-- Series over dbOne. -/
def sOne : series := { id := 9, blockDB := dbOne, shardID := 5 }

/-- Series over dbEmpty. -/
def sEmpty : series := { id := 9, blockDB := dbEmpty, shardID := 5 }

/-- Series over dbErr. -/
def sErr : series := { id := 9, blockDB := dbErr, shardID := 5 }

/-- The inclusive range 1000 to 2000 of scenario S3. -/
def trEx : TimeRange := NewInclusiveTimeRange 1000 2000

/-! ## Arithmetic helper lemmas about the byte codec -/

theorem bytesVal_go (bs : List Nat) (a : Nat) :
    bs.foldl (fun acc b => acc * 256 + b) a
      = a * 2 ^ (8 * bs.length) + bytesVal bs := by
  induction bs generalizing a with
  | nil => simp [bytesVal]
  | cons b bs ih =>
    have h1 : bytesVal (b :: bs) = b * 2 ^ (8 * bs.length) + bytesVal bs := by
      simpa [bytesVal] using ih b
    simp only [List.foldl_cons, List.length_cons]
    rw [ih (a * 256 + b), h1]
    have hp : 2 ^ (8 * (bs.length + 1)) = 2 ^ (8 * bs.length) * 256 := by
      rw [Nat.mul_add, pow_add]; norm_num
    rw [hp]; ring

theorem bytesVal_cons (b : Nat) (bs : List Nat) :
    bytesVal (b :: bs) = b * 2 ^ (8 * bs.length) + bytesVal bs := by
  simpa [bytesVal] using bytesVal_go bs b

theorem natToDigits_length (n : Nat) :
    ∀ v, (natToDigits n v).length = n := by
  induction n with
  | zero => intro v; simp [natToDigits]
  | succ n ih => intro v; simp [natToDigits, ih]

theorem bytesVal_lt (bs : List Nat) (h : ∀ x ∈ bs, x < 256) :
    bytesVal bs < 2 ^ (8 * bs.length) := by
  induction bs with
  | nil => simp [bytesVal]
  | cons b bs ih =>
    have hb : b < 256 := h b (by simp)
    have hbs := ih (fun x hx => h x (by simp [hx]))
    rw [bytesVal_cons, List.length_cons]
    have hp : 2 ^ (8 * (bs.length + 1)) = 2 ^ (8 * bs.length) * 256 := by
      rw [Nat.mul_add, pow_add]; norm_num
    rw [hp]
    calc b * 2 ^ (8 * bs.length) + bytesVal bs
        < b * 2 ^ (8 * bs.length) + 2 ^ (8 * bs.length) := by omega
      _ = (b + 1) * 2 ^ (8 * bs.length) := by ring
      _ ≤ 256 * 2 ^ (8 * bs.length) :=
          Nat.mul_le_mul_right _ (by omega)
      _ = 2 ^ (8 * bs.length) * 256 := by ring

theorem bytesVal_natToDigits (n : Nat) :
    ∀ v, v < 2 ^ (8 * n) → bytesVal (natToDigits n v) = v := by
  induction n with
  | zero =>
    intro v hv
    simp only [Nat.mul_zero, pow_zero, Nat.lt_one_iff] at hv
    simp [natToDigits, bytesVal, hv]
  | succ n ih =>
    intro v hv
    have hB : 0 < 2 ^ (8 * n) := Nat.two_pow_pos _
    have hp : 2 ^ (8 * (n + 1)) = 2 ^ (8 * n) * 256 := by
      rw [Nat.mul_add, pow_add]; norm_num
    have hdiv : v / 2 ^ (8 * n) < 256 := by
      rw [Nat.div_lt_iff_lt_mul hB]
      calc v < 2 ^ (8 * (n + 1)) := hv
        _ = 256 * 2 ^ (8 * n) := by rw [hp]; ring
    have hmod : v % 2 ^ (8 * n) < 2 ^ (8 * n) := Nat.mod_lt _ hB
    simp only [natToDigits]
    rw [bytesVal_cons, natToDigits_length, ih _ hmod, Nat.mod_eq_of_lt hdiv]
    calc v / 2 ^ (8 * n) * 2 ^ (8 * n) + v % 2 ^ (8 * n)
        = 2 ^ (8 * n) * (v / 2 ^ (8 * n)) + v % 2 ^ (8 * n) := by ring
      _ = v := Nat.div_add_mod v (2 ^ (8 * n))

theorem natToDigits_bytesVal (bs : List Nat) (h : ∀ x ∈ bs, x < 256) :
    natToDigits bs.length (bytesVal bs) = bs := by
  induction bs with
  | nil => simp [natToDigits]
  | cons b bs ih =>
    have hb : b < 256 := h b (by simp)
    have hval := bytesVal_lt bs (fun x hx => h x (by simp [hx]))
    simp only [List.length_cons, natToDigits]
    rw [bytesVal_cons]
    have hd : (b * 2 ^ (8 * bs.length) + bytesVal bs) / 2 ^ (8 * bs.length)
        = b := by
      rw [Nat.mul_comm b _, Nat.mul_add_div (Nat.two_pow_pos _),
        Nat.div_eq_of_lt hval]
      omega
    have hm : (b * 2 ^ (8 * bs.length) + bytesVal bs) % 2 ^ (8 * bs.length)
        = bytesVal bs := by
      rw [Nat.mul_comm b _, Nat.mul_add_mod, Nat.mod_eq_of_lt hval]
    rw [hd, hm, Nat.mod_eq_of_lt hb, ih (fun x hx => h x (by simp [hx]))]

theorem ordering_then_eq (o : Ordering) : o.then Ordering.eq = o := by
  cases o <;> rfl

theorem Uint16ToBytes_eq (v : Nat) : Uint16ToBytes v = natToDigits 2 v := by
  simp only [Uint16ToBytes, natToDigits]
  norm_num

theorem Uint32ToBytes_eq (v : Nat) : Uint32ToBytes v = natToDigits 4 v := by
  simp only [Uint32ToBytes, natToDigits, List.cons.injEq, and_true]
  norm_num
  omega

theorem Uint64ToBytes_eq (v : Nat) : Uint64ToBytes v = natToDigits 8 v := by
  simp only [Uint64ToBytes, natToDigits, List.cons.injEq, and_true]
  norm_num
  omega

theorem bytesCompare_digits (n : Nat) :
    ∀ (v w : Nat) (r1 r2 : List Nat), v < 2 ^ (8 * n) → w < 2 ^ (8 * n) →
      bytesCompare (natToDigits n v ++ r1) (natToDigits n w ++ r2)
        = (natCompare v w).then (bytesCompare r1 r2) := by
  induction n with
  | zero =>
    intro v w r1 r2 hv hw
    simp only [Nat.mul_zero, pow_zero, Nat.lt_one_iff] at hv hw
    subst hv; subst hw
    simp [natToDigits, natCompare, Ordering.then]
  | succ n ih =>
    intro v w r1 r2 hv hw
    have hB : 0 < 2 ^ (8 * n) := Nat.two_pow_pos _
    have hp : 2 ^ (8 * (n + 1)) = 2 ^ (8 * n) * 256 := by
      rw [Nat.mul_add, pow_add]; norm_num
    have hdv : v / 2 ^ (8 * n) < 256 := by
      rw [Nat.div_lt_iff_lt_mul hB]
      calc v < 2 ^ (8 * (n + 1)) := hv
        _ = 256 * 2 ^ (8 * n) := by rw [hp]; ring
    have hdw : w / 2 ^ (8 * n) < 256 := by
      rw [Nat.div_lt_iff_lt_mul hB]
      calc w < 2 ^ (8 * (n + 1)) := hw
        _ = 256 * 2 ^ (8 * n) := by rw [hp]; ring
    simp only [natToDigits, List.cons_append]
    rw [Nat.mod_eq_of_lt hdv, Nat.mod_eq_of_lt hdw]
    by_cases h1 : v / 2 ^ (8 * n) < w / 2 ^ (8 * n)
    · have hvw : v < w := Nat.lt_of_div_lt_div h1
      simp [bytesCompare, h1, natCompare, hvw, Ordering.then]
    · by_cases h2 : w / 2 ^ (8 * n) < v / 2 ^ (8 * n)
      · have hwv : w < v := Nat.lt_of_div_lt_div h2
        simp [bytesCompare, h1, h2, natCompare, Nat.lt_asymm hwv, hwv,
          Ordering.then]
      · have hmodv : v % 2 ^ (8 * n) < 2 ^ (8 * n) := Nat.mod_lt _ hB
        have hmodw : w % 2 ^ (8 * n) < 2 ^ (8 * n) := Nat.mod_lt _ hB
        have hrec := ih (v % 2 ^ (8 * n)) (w % 2 ^ (8 * n)) r1 r2 hmodv hmodw
        simp only [bytesCompare, if_neg h1, if_neg h2]
        rw [hrec]
        have heq : v / 2 ^ (8 * n) = w / 2 ^ (8 * n) :=
          Nat.le_antisymm (Nat.not_lt.1 h2) (Nat.not_lt.1 h1)
        have hv' := Nat.div_add_mod v (2 ^ (8 * n))
        have hw' := Nat.div_add_mod w (2 ^ (8 * n))
        rw [heq] at hv'
        have hcomp : natCompare v w
            = natCompare (v % 2 ^ (8 * n)) (w % 2 ^ (8 * n)) := by
          generalize hP : 2 ^ (8 * n) * (w / 2 ^ (8 * n)) = P at hv' hw'
          generalize hrv : v % 2 ^ (8 * n) = rv at hv' ⊢
          generalize hrw : w % 2 ^ (8 * n) = rw at hw' ⊢
          unfold natCompare
          split_ifs <;> first | rfl | (exfalso; omega)
        rw [hcomp]

theorem unmarshal_chunks (i0 : GlobalItemID) (b1 b2 b3 b4 b5 : List Nat)
    (h1 : b1.length = 4) (h2 : b2.length = 2) (h3 : b3.length = 2)
    (h4 : b4.length = 8) (h5 : b5.length = 8) :
    GlobalItemID.UnMarshal i0 (b1 ++ (b2 ++ (b3 ++ (b4 ++ b5)))) =
      (none,
        { ShardID := bytesVal b1, segID := bytesVal b2,
          blockID := bytesVal b3, SeriesID := bytesVal b4,
          ID := bytesVal b5 }) := by
  have hlen : (b1 ++ (b2 ++ (b3 ++ (b4 ++ b5)))).length = 24 := by
    simp [List.length_append, h1, h2, h3, h4, h5]
  have e1 : ((b1 ++ (b2 ++ (b3 ++ (b4 ++ b5)))).drop 0).take 4 = b1 := by
    rw [List.drop_zero, List.take_left' h1]
  have e2 : ((b1 ++ (b2 ++ (b3 ++ (b4 ++ b5)))).drop 4).take 2 = b2 := by
    rw [List.drop_left' h1, List.take_left' h2]
  have e3 : ((b1 ++ (b2 ++ (b3 ++ (b4 ++ b5)))).drop 6).take 2 = b3 := by
    rw [show b1 ++ (b2 ++ (b3 ++ (b4 ++ b5)))
          = (b1 ++ b2) ++ (b3 ++ (b4 ++ b5)) from
        (List.append_assoc b1 b2 _).symm,
      List.drop_left' (by simp [List.length_append, h1, h2]),
      List.take_left' h3]
  have e4 : ((b1 ++ (b2 ++ (b3 ++ (b4 ++ b5)))).drop 8).take 8 = b4 := by
    rw [show b1 ++ (b2 ++ (b3 ++ (b4 ++ b5)))
          = ((b1 ++ b2) ++ b3) ++ (b4 ++ b5) from by
        simp [List.append_assoc],
      List.drop_left' (by simp [List.length_append, h1, h2, h3]),
      List.take_left' h4]
  have e5 : (b1 ++ (b2 ++ (b3 ++ (b4 ++ b5)))).drop 16 = b5 := by
    rw [show b1 ++ (b2 ++ (b3 ++ (b4 ++ b5)))
          = (((b1 ++ b2) ++ b3) ++ b4) ++ b5 from by
        simp [List.append_assoc],
      List.drop_left' (by simp [List.length_append, h1, h2, h3, h4])]
  rw [GlobalItemID.UnMarshal, if_neg (by rw [hlen]; norm_num)]
  rw [BytesToUint32, BytesToUint16, BytesToUint16, BytesToUint64,
    BytesToUint64, e1, e2, e3, e4, e5]
  rw [show b1.take 4 = b1 from by rw [← h1, List.take_length],
    show b2.take 2 = b2 from by rw [← h2, List.take_length],
    show b3.take 2 = b3 from by rw [← h3, List.take_length],
    show b4.take 8 = b4 from by rw [← h4, List.take_length],
    show b5.take 8 = b5 from by rw [← h5, List.take_length]]

theorem bytesCompare_digits_nil (n v w : Nat)
    (hv : v < 2 ^ (8 * n)) (hw : w < 2 ^ (8 * n)) :
    bytesCompare (natToDigits n v) (natToDigits n w) = natCompare v w := by
  have h := bytesCompare_digits n v w [] [] hv hw
  simpa [bytesCompare, ordering_then_eq] using h

/-! ## Claims about the global item id codec -/

/-- C1: Marshal always returns exactly 24 bytes, laid out big-endian as
4 bytes shard, 2 segment, 2 block, 8 series, 8 item, and UnMarshal applied
to Marshal of an id (from any receiver) succeeds and yields the id back
field for field. -/
theorem marshal_roundtrip (i0 id : GlobalItemID)
    (h1 : id.ShardID < 2 ^ 32) (h2 : id.segID < 2 ^ 16)
    (h3 : id.blockID < 2 ^ 16) (h4 : id.SeriesID < 2 ^ 64)
    (h5 : id.ID < 2 ^ 64) :
    id.Marshal.length = 24 ∧
      GlobalItemID.UnMarshal i0 id.Marshal = (none, id) := by
  constructor
  · simp [GlobalItemID.Marshal, Uint32ToBytes, Uint16ToBytes, Uint64ToBytes]
  · rw [GlobalItemID.Marshal]
    simp only [Uint32ToBytes_eq, Uint16ToBytes_eq, Uint64ToBytes_eq]
    rw [unmarshal_chunks i0 _ _ _ _ _ (natToDigits_length 4 _)
      (natToDigits_length 2 _) (natToDigits_length 2 _)
      (natToDigits_length 8 _) (natToDigits_length 8 _)]
    rw [bytesVal_natToDigits 4 _ (by simpa using h1),
      bytesVal_natToDigits 2 _ (by simpa using h2),
      bytesVal_natToDigits 2 _ (by simpa using h3),
      bytesVal_natToDigits 8 _ (by simpa using h4),
      bytesVal_natToDigits 8 _ (by simpa using h5)]

/-- Witness for C1: the id of scenario S1 satisfies the width bounds and
round-trips through a 24-byte encoding. -/
theorem marshal_roundtrip_witness :
    (gEx.ShardID < 2 ^ 32 ∧ gEx.segID < 2 ^ 16 ∧ gEx.blockID < 2 ^ 16 ∧
      gEx.SeriesID < 2 ^ 64 ∧ gEx.ID < 2 ^ 64) ∧
    (gEx.Marshal.length = 24 ∧
      GlobalItemID.UnMarshal gZero gEx.Marshal = (none, gEx)) :=
  ⟨⟨by decide, by decide, by decide, by decide, by decide⟩,
    marshal_roundtrip gZero gEx (by decide) (by decide) (by decide)
      (by decide) (by decide)⟩

/-- C2: lexicographic comparison of the encoded forms of two ids agrees
with comparison of their field tuples in declaration order. -/
theorem marshal_lex_order (a b : GlobalItemID)
    (ha1 : a.ShardID < 2 ^ 32) (ha2 : a.segID < 2 ^ 16)
    (ha3 : a.blockID < 2 ^ 16) (ha4 : a.SeriesID < 2 ^ 64)
    (ha5 : a.ID < 2 ^ 64)
    (hb1 : b.ShardID < 2 ^ 32) (hb2 : b.segID < 2 ^ 16)
    (hb3 : b.blockID < 2 ^ 16) (hb4 : b.SeriesID < 2 ^ 64)
    (hb5 : b.ID < 2 ^ 64) :
    bytesCompare a.Marshal b.Marshal = tupleCompare a b := by
  rw [GlobalItemID.Marshal, GlobalItemID.Marshal]
  simp only [Uint32ToBytes_eq, Uint16ToBytes_eq, Uint64ToBytes_eq]
  rw [bytesCompare_digits 4 _ _ _ _ (by simpa using ha1) (by simpa using hb1),
    bytesCompare_digits 2 _ _ _ _ (by simpa using ha2) (by simpa using hb2),
    bytesCompare_digits 2 _ _ _ _ (by simpa using ha3) (by simpa using hb3),
    bytesCompare_digits 8 _ _ _ _ (by simpa using ha4) (by simpa using hb4),
    bytesCompare_digits_nil 8 _ _ (by simpa using ha5) (by simpa using hb5)]
  rfl

/-- Witness for C2: two concrete in-range ids compare the same way in
encoded and tuple form. -/
theorem marshal_lex_order_witness :
    (gEx.ShardID < 2 ^ 32 ∧ gEx.segID < 2 ^ 16 ∧ gEx.blockID < 2 ^ 16 ∧
      gEx.SeriesID < 2 ^ 64 ∧ gEx.ID < 2 ^ 64 ∧
      gEx2.ShardID < 2 ^ 32 ∧ gEx2.segID < 2 ^ 16 ∧ gEx2.blockID < 2 ^ 16 ∧
      gEx2.SeriesID < 2 ^ 64 ∧ gEx2.ID < 2 ^ 64) ∧
    bytesCompare gEx.Marshal gEx2.Marshal = tupleCompare gEx gEx2 :=
  ⟨⟨by decide, by decide, by decide, by decide, by decide, by decide,
      by decide, by decide, by decide, by decide⟩,
    marshal_lex_order gEx gEx2 (by decide) (by decide) (by decide)
      (by decide) (by decide) (by decide) (by decide) (by decide)
      (by decide) (by decide)⟩

/-- C6: UnMarshal rejects every byte string whose length is not 24 with
the malformed-id error. -/
theorem unmarshal_malformed (i0 : GlobalItemID) (data : List Nat)
    (h : data.length ≠ 24) :
    (GlobalItemID.UnMarshal i0 data).1 = some Err.ErrItemIDMalformed := by
  rw [GlobalItemID.UnMarshal, if_pos (by simpa using h)]

/-- Witness for C6: scenario S2, the three-byte string 0xFF 0xFF 0xFF is
rejected as malformed. -/
theorem unmarshal_malformed_witness :
    ([255, 255, 255] : List Nat).length ≠ 24 ∧
      (GlobalItemID.UnMarshal gZero [255, 255, 255]).1
        = some Err.ErrItemIDMalformed :=
  ⟨by decide, unmarshal_malformed gZero [255, 255, 255] (by decide)⟩

/-- C9: a failed decode is atomic: on any byte string whose length is not
24, UnMarshal returns the malformed-id error and the receiver with every
field unchanged. -/
theorem unmarshal_atomic (i0 : GlobalItemID) (data : List Nat)
    (h : data.length ≠ 24) :
    GlobalItemID.UnMarshal i0 data = (some Err.ErrItemIDMalformed, i0) := by
  rw [GlobalItemID.UnMarshal, if_pos (by simpa using h)]

/-- Witness for C9: decoding a three-byte string leaves the concrete
receiver gEx untouched. -/
theorem unmarshal_atomic_witness :
    ([255, 255, 255] : List Nat).length ≠ 24 ∧
      GlobalItemID.UnMarshal gEx [255, 255, 255]
        = (some Err.ErrItemIDMalformed, gEx) :=
  ⟨by decide, unmarshal_atomic gEx [255, 255, 255] (by decide)⟩

/-- C10: on every byte string of length exactly 24, UnMarshal succeeds
with no validation of the contents, and Marshal applied to the decoded id
reproduces the input byte for byte. -/
theorem unmarshal_total_inverse (i0 : GlobalItemID) (data : List Nat)
    (hlen : data.length = 24) (hb : ∀ x ∈ data, x < 256) :
    (GlobalItemID.UnMarshal i0 data).1 = none ∧
      ((GlobalItemID.UnMarshal i0 data).2).Marshal = data := by
  have l1 : (data.take 4).length = 4 := by
    simp [List.length_take, hlen]
  have l2 : ((data.drop 4).take 2).length = 2 := by
    simp [List.length_take, List.length_drop, hlen]
  have l3 : ((data.drop 6).take 2).length = 2 := by
    simp [List.length_take, List.length_drop, hlen]
  have l4 : ((data.drop 8).take 8).length = 8 := by
    simp [List.length_take, List.length_drop, hlen]
  have l5 : (data.drop 16).length = 8 := by
    simp [List.length_drop, hlen]
  have harg : data.take 4 ++ ((data.drop 4).take 2 ++
      ((data.drop 6).take 2 ++ ((data.drop 8).take 8 ++ data.drop 16)))
      = data := by
    have d4 := List.take_append_drop 4 data
    have d6 : (data.drop 4).take 2 ++ data.drop 6 = data.drop 4 := by
      have h := List.take_append_drop 2 (data.drop 4)
      rwa [List.drop_drop] at h
    have d8 : (data.drop 6).take 2 ++ data.drop 8 = data.drop 6 := by
      have h := List.take_append_drop 2 (data.drop 6)
      rwa [List.drop_drop] at h
    have d16 : (data.drop 8).take 8 ++ data.drop 16 = data.drop 8 := by
      have h := List.take_append_drop 8 (data.drop 8)
      rwa [List.drop_drop] at h
    rw [d16, d8, d6, d4]
  have hchunks := unmarshal_chunks i0 (data.take 4) ((data.drop 4).take 2)
    ((data.drop 6).take 2) ((data.drop 8).take 8) (data.drop 16)
    l1 l2 l3 l4 l5
  rw [harg] at hchunks
  rw [hchunks]
  refine ⟨rfl, ?_⟩
  rw [GlobalItemID.Marshal]
  simp only [Uint32ToBytes_eq, Uint16ToBytes_eq, Uint64ToBytes_eq]
  have n1 : natToDigits 4 (bytesVal (data.take 4)) = data.take 4 := by
    have h := natToDigits_bytesVal (data.take 4)
      (fun x hx => hb x (List.take_subset _ _ hx))
    rwa [l1] at h
  have n2 : natToDigits 2 (bytesVal ((data.drop 4).take 2))
      = (data.drop 4).take 2 := by
    have h := natToDigits_bytesVal ((data.drop 4).take 2)
      (fun x hx => hb x (List.drop_subset _ _ (List.take_subset _ _ hx)))
    rwa [l2] at h
  have n3 : natToDigits 2 (bytesVal ((data.drop 6).take 2))
      = (data.drop 6).take 2 := by
    have h := natToDigits_bytesVal ((data.drop 6).take 2)
      (fun x hx => hb x (List.drop_subset _ _ (List.take_subset _ _ hx)))
    rwa [l3] at h
  have n4 : natToDigits 8 (bytesVal ((data.drop 8).take 8))
      = (data.drop 8).take 8 := by
    have h := natToDigits_bytesVal ((data.drop 8).take 8)
      (fun x hx => hb x (List.drop_subset _ _ (List.take_subset _ _ hx)))
    rwa [l4] at h
  have n5 : natToDigits 8 (bytesVal (data.drop 16)) = data.drop 16 := by
    have h := natToDigits_bytesVal (data.drop 16)
      (fun x hx => hb x (List.drop_subset _ _ hx))
    rwa [l5] at h
  rw [n1, n2, n3, n4, n5]
  exact harg

/-- Witness for C10: the 24 bytes of scenario S1 decode successfully and
re-encode to themselves. -/
theorem unmarshal_total_inverse_witness :
    (([0, 0, 0, 7, 0, 3, 0, 11, 0, 0, 0, 0, 222, 173, 190, 239,
        1, 2, 3, 4, 5, 6, 7, 8] : List Nat).length = 24 ∧
      (∀ x ∈ ([0, 0, 0, 7, 0, 3, 0, 11, 0, 0, 0, 0, 222, 173, 190, 239,
        1, 2, 3, 4, 5, 6, 7, 8] : List Nat), x < 256)) ∧
    ((GlobalItemID.UnMarshal gZero
        [0, 0, 0, 7, 0, 3, 0, 11, 0, 0, 0, 0, 222, 173, 190, 239,
          1, 2, 3, 4, 5, 6, 7, 8]).1 = none ∧
      ((GlobalItemID.UnMarshal gZero
        [0, 0, 0, 7, 0, 3, 0, 11, 0, 0, 0, 0, 222, 173, 190, 239,
          1, 2, 3, 4, 5, 6, 7, 8]).2).Marshal
        = [0, 0, 0, 7, 0, 3, 0, 11, 0, 0, 0, 0, 222, 173, 190, 239,
          1, 2, 3, 4, 5, 6, 7, 8]) :=
  ⟨⟨by decide, by decide⟩,
    unmarshal_total_inverse gZero _ (by decide) (by decide)⟩

/-! ## Claims about the series operations -/

theorem close_go (bs : List BlockDelegate) (accE : List Err)
    (accL : List BlockDelegate) :
    bs.foldl
      (fun acc delegate =>
        (multierrAppend acc.1 delegate.closeResult, acc.2 ++ [delegate]))
      (accE, accL)
      = (accE ++ bs.filterMap (fun d => d.closeResult), accL ++ bs) := by
  induction bs generalizing accE accL with
  | nil => simp
  | cons d bs ih =>
    simp only [List.foldl_cons, List.filterMap_cons]
    rw [ih]
    cases hc : d.closeResult <;> simp [multierrAppend, hc]

/-- C3: when the block database span succeeds, Span fails with the
empty-series-span error exactly when the delegate list is empty, and
otherwise returns a span holding those delegates in order; a returned
span is never empty. -/
theorem span_requires_delegates (s : series) (r : TimeRange)
    (blocks : List BlockDelegate) (h : s.blockDB.span r = .ok blocks) :
    (blocks = [] → series.Span s r = .error Err.ErrEmptySeriesSpan) ∧
    (blocks ≠ [] →
      series.Span s r = .ok (newSeriesSpan r blocks s.id s.shardID) ∧
        (newSeriesSpan r blocks s.id s.shardID).blocks = blocks) ∧
    (∀ sp, series.Span s r = .ok sp → sp.blocks ≠ []) := by
  refine ⟨?_, ?_, ?_⟩
  · intro hnil
    subst hnil
    simp [series.Span, h]
  · intro hne
    have hlen : ¬ blocks.length < 1 := by
      cases blocks with
      | nil => exact absurd rfl hne
      | cons x xs => simp
    refine ⟨?_, rfl⟩
    rw [series.Span, h]
    simp [hlen]
  · intro sp hsp
    rw [series.Span, h] at hsp
    by_cases hlen : blocks.length < 1
    · simp [hlen] at hsp
    · simp only [hlen, if_false] at hsp
      cases hsp
      have : blocks ≠ [] := by
        cases blocks with
        | nil => simp at hlen
        | cons x xs => simp
      simpa [newSeriesSpan] using this

/-- Witness for C3: a block database returning one delegate yields a span
holding exactly that delegate. -/
theorem span_requires_delegates_witness :
    sOne.blockDB.span trEx = Except.ok [dA] ∧
      series.Span sOne trEx
        = .ok (newSeriesSpan trEx [dA] sOne.id sOne.shardID) :=
  ⟨rfl, ((span_requires_delegates sOne trEx [dA] rfl).2.1 (by decide)).1⟩

/-- C4: Create probes the block database span over the inclusive range
from t to t; if a block exists it wraps exactly those delegates and never
calls create, and otherwise it calls create exactly once and wraps the
single new delegate; in both cases the span carries the inclusive range
from t to t. -/
theorem create_uses_existing_block (s : series) (t : Nat)
    (blocks : List BlockDelegate)
    (h : s.blockDB.span (NewInclusiveTimeRange t t) = .ok blocks) :
    (blocks ≠ [] →
      series.Create s t =
        (.ok (newSeriesSpan (NewInclusiveTimeRange t t) blocks
          s.id s.shardID), [])) ∧
    (blocks = [] → ∀ b, s.blockDB.create t = .ok b →
      series.Create s t =
        (.ok (newSeriesSpan (NewInclusiveTimeRange t t) [b]
          s.id s.shardID), [t])) ∧
    (newSeriesSpan (NewInclusiveTimeRange t t) blocks s.id
        s.shardID).timeRange
      = { start := t, endTime := t, includeStart := true,
          includeEnd := true } := by
  refine ⟨?_, ?_, rfl⟩
  · intro hne
    have hlen : blocks.length > 0 := by
      cases blocks with
      | nil => exact absurd rfl hne
      | cons x xs => simp
    rw [series.Create]
    simp only [h, hlen, if_pos]
  · intro hnil b hb
    subst hnil
    rw [series.Create]
    simp only [h, hb]
    simp

/-- Witness for C4: scenario S5, an empty block database at t = 3000
makes Create invoke the block database create exactly once and wrap the
new delegate. -/
theorem create_uses_existing_block_witness :
    sEmpty.blockDB.span (NewInclusiveTimeRange 3000 3000)
        = Except.ok [] ∧
      series.Create sEmpty 3000 =
        (.ok (newSeriesSpan (NewInclusiveTimeRange 3000 3000) [dB]
          sEmpty.id sEmpty.shardID), [3000]) :=
  ⟨rfl,
    (create_uses_existing_block sEmpty 3000 [] rfl).2.1 rfl dB rfl⟩

/-- C5: closing a span closes each of its delegates exactly once, in
order, regardless of individual failures, and the aggregated error is the
list of every delegate failure. -/
theorem close_fan_in (sp : seriesSpan) :
    (seriesSpan.Close sp).2 = sp.blocks ∧
      (seriesSpan.Close sp).1
        = sp.blocks.filterMap (fun d => d.closeResult) := by
  rw [seriesSpan.Close, close_go]
  simp

/-- C7: Get surfaces block database errors unchanged, and turns an absent
delegate into the block-absent error annotated with the requested id. -/
theorem get_error_policy (s : series) (g : GlobalItemID) :
    (∀ e, s.blockDB.block g = .error e → series.Get s g = .error e) ∧
    (s.blockDB.block g = .ok none →
      series.Get s g = .error (Err.withId Err.ErrBlockAbsent g)) := by
  constructor
  · intro e he
    rw [series.Get, he]
  · intro hnone
    rw [series.Get, hnone]

/-- Witness for C7: an upstream failure passes through unchanged, and
scenario S6, a nil delegate, becomes block-absent carrying the id. -/
theorem get_error_policy_witness :
    series.Get sErr gEx = .error (Err.upstream 7) ∧
      series.Get sEmpty gEx
        = .error (Err.withId Err.ErrBlockAbsent gEx) :=
  ⟨(get_error_policy sErr gEx).1 (Err.upstream 7) rfl,
    (get_error_policy sEmpty gEx).2 rfl⟩

/-- C8: when the block database resolves a delegate, Get returns an item
tagged with the series own id and the item field of the requested id,
together with the delegate as the closer. -/
theorem get_tagging (s : series) (g : GlobalItemID) (b : BlockDelegate)
    (h : s.blockDB.block g = .ok (some b)) :
    series.Get s g =
      .ok ({ data := b.data, itemID := g.ID, seriesID := series.ID s }, b) := by
  rw [series.Get, h]
  rfl

/-- Witness for C8: a resolvable id yields the item tagged with the
series id 9 and the item field of gEx, closed by the delegate dA. -/
theorem get_tagging_witness :
    sOne.blockDB.block gEx = .ok (some dA) ∧
      series.Get sOne gEx =
        .ok ({ data := dA.data, itemID := gEx.ID, seriesID := series.ID sOne }, dA) :=
  ⟨rfl, get_tagging sOne gEx dA rfl⟩

end Tsdb
